import Mathlib

/-!
Verification of the passwordless Google-Datastore token store
(`lib/datastore-store.js`).

The store keeps one kind of entity, `TokenRecord`, in Google Datastore and
uses bcrypt for token hashing.  The embedding below models:

* the Datastore contents for the configured kind as a list of entities in
  store order, each carrying its numeric identity key, together with the next
  id the backend would assign to an incomplete key;
* `bcrypt.hash` / `bcrypt.compare` by their caller-visible contract: a digest
  verifies exactly the plaintext it was derived from, and carries the random
  salt drawn inside bcrypt as an explicit argument;
* the callback protocol: a synchronous `throw` on invalid parameters becomes
  `Except.error`, and the tuple handed to the callback becomes the `.ok`
  payload;
* the two fallible primitives of `authenticate` (`datastore.runQuery` and
  `bcrypt.compare`) with explicit failure injection, so that the error-path
  behaviour of the source is provable.  The mutating operations are modelled
  on the execution where the backend calls succeed.
-/

namespace PasswordlessDatastore

/-- Model of a bcrypt digest: the salt drawn inside `bcrypt.hash` together
with the plaintext the digest was derived from.  This captures the contract
the store relies on: `compare` succeeds exactly for the original plaintext,
and digests of the same token under different salts differ. -/
structure Digest where
  salt : Nat
  plain : String
deriving Repr, DecidableEq

/-- Model of `bcrypt.hash(token, 10, ...)` on the success path.  The salt
stands for the random salt bcrypt draws for this call. -/
def bcryptHash (token : String) (salt : Nat) : Digest := ⟨salt, token⟩

/-- Model of the boolean result of a successful `bcrypt.compare(token, d)`. -/
def bcryptCompareOk (token : String) (d : Digest) : Bool := token == d.plain

/-- The persisted record shape built in `storeOrUpdate`:
`{ uid, hashedToken, ttl, originUrl }`.  `originUrl` is `none` when the
caller passed `null`/`undefined`. -/
structure TokenRecord where
  uid : String
  hashedToken : Digest
  ttl : Int
  originUrl : Option String
deriving Repr, DecidableEq

/-- The Datastore contents for the configured kind: entities with their
numeric identity keys, in store order, plus the next id the backend would
allocate for an incomplete key (`datastore.key(kind)`). -/
structure Store where
  entries : List (Nat × TokenRecord)
  nextKey : Nat
deriving Repr, DecidableEq

/-- The tuple `(error, valid, referrer)` handed to the `authenticate`
callback. -/
structure AuthResult where
  err : Option String
  valid : Bool
  referrer : Option String
deriving Repr, DecidableEq

/-- Failure injection for the two fallible primitives `authenticate` uses:
`datastore.runQuery` and `bcrypt.compare`.  `none` means the primitive
succeeds on this execution. -/
structure AuthWorld where
  queryErr : Option String
  compareErr : Option String
deriving Repr, DecidableEq

/-- The execution on which both primitives succeed. -/
def noFail : AuthWorld := ⟨none, none⟩

/-- The query built in `authenticate`:
`.filter('uid', '=', uid).filter('ttl', '>', Date.now())`. -/
def runAuthQuery (st : Store) (uid : String) (now : Int) : List (Nat × TokenRecord) :=
  st.entries.filter (fun e => e.2.uid == uid && decide (now < e.2.ttl))

/-- The keys-only query `.select('__key__').filter('uid', '=', uid)` used by
`storeOrUpdate` and `invalidateUser`; note it carries no ttl filter. -/
def uidQuery (st : Store) (uid : String) : List (Nat × TokenRecord) :=
  st.entries.filter (fun e => e.2.uid == uid)

/-- `DatastoreStore.prototype.authenticate`.  The guard models
`if (!token || !uid || !callback) throw ...`: the empty string is the falsy
string value.  On the success path the first query result is compared against
the candidate token and `results[0].originUrl || ''` is returned. -/
def authenticate (w : AuthWorld) (st : Store) (now : Int) (token uid : String) :
    Except String AuthResult :=
  if token = "" ∨ uid = "" then
    .error "TokenStore:authenticate called with invalid parameters"
  else
    match w.queryErr with
    | some e => .ok ⟨some e, false, none⟩
    | none =>
      match runAuthQuery st uid now with
      | [] => .ok ⟨none, false, none⟩
      | r :: _ =>
        match w.compareErr with
        | some e => .ok ⟨some e, false, none⟩
        | none =>
          if bcryptCompareOk token r.2.hashedToken then
            .ok ⟨none, true, some (r.2.originUrl.getD "")⟩
          else
            .ok ⟨none, false, none⟩

/-- The `newRecord` object built in `storeOrUpdate`:
`{ uid, hashedToken, ttl: Date.now() + msToLive, originUrl }`. -/
def mkRecord (now : Int) (salt : Nat) (token uid : String) (msToLive : Int)
    (originUrl : Option String) : TokenRecord :=
  ⟨uid, bcryptHash token salt, now + msToLive, originUrl⟩

/-- `DatastoreStore.prototype.storeOrUpdate` on the execution where bcrypt and
the backend succeed.  The guard models `if (!token || !uid || !msToLive ||
!callback) throw ...`: for a number, `!msToLive` holds exactly at `0` (a
negative number is truthy in JavaScript).  The uid lookup reuses the first
result's key; otherwise `datastore.key(kind)` allocates a fresh id, and
`upsert` writes the record under the chosen key. -/
def storeOrUpdate (st : Store) (now : Int) (salt : Nat) (token uid : String)
    (msToLive : Int) (originUrl : Option String) : Except String Store :=
  if token = "" ∨ uid = "" ∨ msToLive = 0 then
    .error "TokenStore:storeOrUpdate called with invalid parameters"
  else
    let newRecord := mkRecord now salt token uid msToLive originUrl
    match uidQuery st uid with
    | [] => .ok ⟨st.entries ++ [(st.nextKey, newRecord)], st.nextKey + 1⟩
    | (k, _) :: _ =>
      .ok ⟨st.entries.map (fun e => if e.1 == k then (k, newRecord) else e), st.nextKey⟩

/-- `DatastoreStore.prototype.invalidateUser` on the execution where the
backend succeeds: if the uid query has a first result, its key is deleted,
otherwise the callback is invoked with no error and nothing changes. -/
def invalidateUser (st : Store) (uid : String) : Except String Store :=
  if uid = "" then
    .error "TokenStore:invalidateUser called with invalid parameters"
  else
    match uidQuery st uid with
    | [] => .ok st
    | (k, _) :: _ => .ok ⟨st.entries.filter (fun e => e.1 != k), st.nextKey⟩

/-- `DatastoreStore.prototype.clear` on the execution where the backend
succeeds: the keys-only query over the whole kind is mapped to its keys and
they are deleted in one call; with no results the callback fires directly. -/
def clear (st : Store) : Store :=
  if 0 < st.entries.length then
    let keys := st.entries.map Prod.fst
    ⟨st.entries.filter (fun e => !(keys.contains e.1)), st.nextKey⟩
  else st

/-- `DatastoreStore.prototype.length` on the execution where the backend
succeeds: the keys-only query over the whole kind carries no filter at all,
and the callback receives `results.length`. -/
def lengthOp (st : Store) : Nat := st.entries.length

/-- Records the query of `length` would count as currently valid at `now`
(the store itself never computes this). -/
def validCount (st : Store) (now : Int) : Nat :=
  (st.entries.filter (fun e => decide (now < e.2.ttl))).length

/-- Records whose ttl is already in the past at `now`. -/
def expiredCount (st : Store) (now : Int) : Nat :=
  (st.entries.filter (fun e => decide (e.2.ttl ≤ now))).length

/-- The configuration the constructor stores on `this`: the backend handle
and the kind name, both exactly as passed. -/
structure Config where
  datastore : Option Nat
  kind : Option String
deriving Repr, DecidableEq

/-- The `DatastoreStore` constructor.  It throws only when called with zero
arguments (`arguments.length === 0`); it assigns `this.kind = kind` with no
defaulting, so an omitted kind is stored as `none`. -/
def mkDatastoreStore (argCount : Nat) (datastore : Option Nat) (kind : Option String) :
    Except String Config :=
  if argCount = 0 then
    .error "A valid google cloud datastore instance has to be provided"
  else
    .ok ⟨datastore, kind⟩

/-! Helper lemmas about the list-level effect of the operations. -/

/-- A filter by a stronger predicate of a list whose filter by a weaker
predicate is empty is empty. -/
theorem filter_nil_of_imp {α : Type} {p q : α → Bool} {l : List α}
    (himp : ∀ a, p a = true → q a = true) (hq : l.filter q = []) :
    l.filter p = [] := by
  rw [List.filter_eq_nil_iff] at hq ⊢
  intro a ha hpa
  exact hq a ha (himp a hpa)

/-- Upserting under a key no entry carries leaves the entry list unchanged. -/
theorem map_replace_eq_self {l : List (Nat × TokenRecord)} {k : Nat} {nr : TokenRecord}
    (hk : ∀ e ∈ l, e.1 ≠ k) :
    l.map (fun e => if e.1 == k then (k, nr) else e) = l := by
  have h : ∀ e ∈ l, (fun e : Nat × TokenRecord => if e.1 == k then (k, nr) else e) e = id e := by
    intro e he
    have hne : (e.1 == k) = false := by simpa using hk e he
    simp [hne]
  rw [List.map_congr_left h, List.map_id]

/-- Effect of the upsert-under-reused-key step on any query that implies the
uid filter: when the uid filter of the old entries is exactly `[(k, r)]` and
keys are unique, filtering the replaced entries yields exactly the new record
under the old key (provided the new record passes the filter). -/
theorem filter_map_replace {p : Nat × TokenRecord → Bool} {l : List (Nat × TokenRecord)}
    {k : Nat} {r nr : TokenRecord} {uid : String}
    (hnodup : (l.map Prod.fst).Nodup)
    (hfil : l.filter (fun e => e.2.uid == uid) = [(k, r)])
    (hp : p (k, nr) = true)
    (himp : ∀ e, p e = true → (e.2.uid == uid) = true) :
    (l.map (fun e => if e.1 == k then (k, nr) else e)).filter p = [(k, nr)] := by
  induction l with
  | nil => simp at hfil
  | cons h t ih =>
    simp only [List.map_cons, List.nodup_cons] at hnodup
    by_cases hm : (h.2.uid == uid) = true
    · rw [List.filter_cons, if_pos hm] at hfil
      have hh : h = (k, r) := (List.cons_eq_cons.mp hfil).1
      have htail : t.filter (fun e : Nat × TokenRecord => e.2.uid == uid) = [] :=
        (List.cons_eq_cons.mp hfil).2
      have hknot : k ∉ t.map Prod.fst := by
        simpa [hh] using hnodup.1
      have hne : ∀ e ∈ t, e.1 ≠ k := by
        intro e he hek
        exact hknot (hek ▸ List.mem_map_of_mem Prod.fst he)
      rw [List.map_cons, hh]
      have hself : ((k, r).1 == k) = true := by simp
      simp only [hself, if_pos]
      rw [List.filter_cons_of_pos hp, map_replace_eq_self hne,
        filter_nil_of_imp himp htail]
    · rw [List.filter_cons, if_neg hm] at hfil
      have hmem : (k, r) ∈ t := by
        have : (k, r) ∈ t.filter (fun e : Nat × TokenRecord => e.2.uid == uid) := by
          rw [hfil]; exact List.mem_singleton_self _
        exact List.mem_of_mem_filter this
      have hne : h.1 ≠ k := by
        intro hek
        exact hnodup.1 (hek ▸ List.mem_map_of_mem Prod.fst hmem)
      have hkeep : (if (h.1 == k) then ((k, nr) : Nat × TokenRecord) else h) = h := by
        have : (h.1 == k) = false := by simpa using hne
        simp [this]
      rw [List.map_cons, hkeep]
      have hph : ¬ p h = true := fun hp' => hm (himp h hp')
      rw [List.filter_cons_of_neg hph]
      exact ih hnodup.2 hfil

/-- Each list splits, by length, into the part still valid at `now` and the
part already expired. -/
theorem length_filter_partition (l : List (Nat × TokenRecord)) (now : Int) :
    l.length = (l.filter (fun e => decide (now < e.2.ttl))).length
      + (l.filter (fun e => decide (e.2.ttl ≤ now))).length := by
  induction l with
  | nil => simp
  | cons h t ih =>
    by_cases hc : now < h.2.ttl
    · have hc' : ¬ h.2.ttl ≤ now := not_le.mpr hc
      simp [List.filter_cons, hc, hc', ih]
      omega
    · have hc' : h.2.ttl ≤ now := not_lt.mp hc
      simp [List.filter_cons, hc, hc', ih]
      omega

/-- Projection facts about the record built by `storeOrUpdate`. -/
theorem mkRecord_uid (now : Int) (salt : Nat) (token uid : String) (msToLive : Int)
    (originUrl : Option String) :
    (mkRecord now salt token uid msToLive originUrl).uid = uid := rfl

/-- The stored ttl is the absolute instant `now + msToLive`. -/
theorem mkRecord_ttl (now : Int) (salt : Nat) (token uid : String) (msToLive : Int)
    (originUrl : Option String) :
    (mkRecord now salt token uid msToLive originUrl).ttl = now + msToLive := rfl

/-- The stored digest is the bcrypt digest of the token. -/
theorem mkRecord_hashedToken (now : Int) (salt : Nat) (token uid : String) (msToLive : Int)
    (originUrl : Option String) :
    (mkRecord now salt token uid msToLive originUrl).hashedToken = bcryptHash token salt := rfl

/-- The stored origin URL is exactly the one passed in. -/
theorem mkRecord_originUrl (now : Int) (salt : Nat) (token uid : String) (msToLive : Int)
    (originUrl : Option String) :
    (mkRecord now salt token uid msToLive originUrl).originUrl = originUrl := rfl

/-- Claim C1: for every non-empty token, non-empty uid, `msToLive > 0` and any
originUrl, `storeOrUpdate(token, uid, msToLive, originUrl)` followed
immediately by `authenticate(token, uid)` yields `(true, originUrl)`, or
`(true, "")` when originUrl was empty or absent (stated here for stores whose
keys are unique and which hold at most one record for the uid, the invariant
the store maintains). -/
theorem storeOrUpdate_then_authenticate_succeeds
    (st st' : Store) (now : Int) (salt : Nat) (token uid : String) (msToLive : Int)
    (originUrl : Option String)
    (hkeys : (st.entries.map Prod.fst).Nodup)
    (huid : (uidQuery st uid).length ≤ 1)
    (hm : 0 < msToLive)
    (hrun : storeOrUpdate st now salt token uid msToLive originUrl = .ok st') :
    authenticate noFail st' now token uid = .ok ⟨none, true, some (originUrl.getD "")⟩ := by
  unfold storeOrUpdate at hrun
  by_cases hbad : token = "" ∨ uid = "" ∨ msToLive = 0
  · rw [if_pos hbad] at hrun
    exact absurd hrun (by simp)
  rw [if_neg hbad] at hrun
  push_neg at hbad
  obtain ⟨ht, hu, _⟩ := hbad
  have hquery : runAuthQuery st' uid now
      = [((match uidQuery st uid with
          | [] => st.nextKey
          | (k, _) :: _ => k), mkRecord now salt token uid msToLive originUrl)] := by
    cases hcase : uidQuery st uid with
    | nil =>
      simp only [hcase] at hrun
      have hst' : st' = ⟨st.entries ++ [(st.nextKey, mkRecord now salt token uid msToLive originUrl)],
          st.nextKey + 1⟩ := by
        cases hrun; rfl
      subst hst'
      unfold runAuthQuery
      rw [List.filter_append]
      have hleft : st.entries.filter
          (fun e => e.2.uid == uid && decide (now < e.2.ttl)) = [] :=
        filter_nil_of_imp (fun e h => (Bool.and_eq_true_iff.mp h).1) hcase
      have hpnew : ((mkRecord now salt token uid msToLive originUrl).uid == uid
          && decide (now < (mkRecord now salt token uid msToLive originUrl).ttl)) = true := by
        simp [mkRecord_uid, mkRecord_ttl]
        omega
      simp [hcase, hleft, hpnew]
    | cons hd tl =>
      obtain ⟨k, r0⟩ := hd
      have htl : tl = [] := by
        have := huid
        rw [hcase] at this
        simpa using this
      subst htl
      simp only [hcase] at hrun
      have hst' : st' = ⟨st.entries.map
          (fun e => if e.1 == k then (k, mkRecord now salt token uid msToLive originUrl) else e),
          st.nextKey⟩ := by
        cases hrun; rfl
      subst hst'
      have hp : ((fun e : Nat × TokenRecord => e.2.uid == uid && decide (now < e.2.ttl))
          ((k, mkRecord now salt token uid msToLive originUrl))) = true := by
        simp [mkRecord_uid, mkRecord_ttl]
        omega
      show List.filter (fun e => e.2.uid == uid && decide (now < e.2.ttl))
          (st.entries.map
            (fun e => if e.1 == k then (k, mkRecord now salt token uid msToLive originUrl) else e))
          = [(k, mkRecord now salt token uid msToLive originUrl)]
      exact @filter_map_replace (fun e => e.2.uid == uid && decide (now < e.2.ttl))
        st.entries k r0 (mkRecord now salt token uid msToLive originUrl) uid hkeys hcase hp
        (fun e h => (Bool.and_eq_true_iff.mp h).1)
  unfold authenticate
  rw [if_neg (by push_neg; exact ⟨ht, hu⟩)]
  have hcmp : bcryptCompareOk token (bcryptHash token salt) = true := by
    simp [bcryptCompareOk, bcryptHash]
  simp [noFail, hquery, hcmp, mkRecord_hashedToken, mkRecord_originUrl]

/-- Claim C1 witness at a concrete input. -/
theorem storeOrUpdate_then_authenticate_succeeds_witness :
    authenticate noFail ⟨[(0, mkRecord 100 7 "abc123" "u1" 1000 (some "/dashboard"))], 1⟩
      100 "abc123" "u1" = .ok ⟨none, true, some "/dashboard"⟩ := by
  have h := storeOrUpdate_then_authenticate_succeeds ⟨[], 0⟩
    ⟨[(0, mkRecord 100 7 "abc123" "u1" 1000 (some "/dashboard"))], 1⟩
    100 7 "abc123" "u1" 1000 (some "/dashboard")
    (by simp) (by simp [uidQuery]) (by omega) (by rfl)
  simpa using h

/-- The ttl-filtered query of `authenticate` is the uid query further
restricted to unexpired records. -/
theorem runAuthQuery_eq_filter_uidQuery (st : Store) (uid : String) (now : Int) :
    runAuthQuery st uid now = (uidQuery st uid).filter (fun e => decide (now < e.2.ttl)) := by
  unfold runAuthQuery uidQuery
  rw [List.filter_filter]
  exact List.filter_congr (fun a _ => Bool.and_comm (a.2.uid == uid) (decide (now < a.2.ttl)))

/-- Claim C2: for every non-empty token and uid, `authenticate(token, uid)`
returns the identical outcome `(false, null)` in all three cases: no record
exists for uid, the record for uid has `ttl <= now` (the expired record is
treated as not found even while still physically stored), and the token does
not match the stored hash. -/
theorem authenticate_uniform_not_found
    (st : Store) (now : Int) (token uid : String) (k : Nat) (r : TokenRecord)
    (ht : token ≠ "") (hu : uid ≠ "") :
    (uidQuery st uid = [] →
      authenticate noFail st now token uid = .ok ⟨none, false, none⟩)
    ∧ (uidQuery st uid = [(k, r)] → r.ttl ≤ now →
      (k, r) ∈ st.entries
      ∧ authenticate noFail st now token uid = .ok ⟨none, false, none⟩)
    ∧ (uidQuery st uid = [(k, r)] → now < r.ttl →
      bcryptCompareOk token r.hashedToken = false →
      authenticate noFail st now token uid = .ok ⟨none, false, none⟩) := by
  have hguard : ¬ (token = "" ∨ uid = "") := by push_neg; exact ⟨ht, hu⟩
  refine ⟨?_, ?_, ?_⟩
  · intro hnone
    have hq : runAuthQuery st uid now = [] := by
      rw [runAuthQuery_eq_filter_uidQuery, hnone]
      rfl
    unfold authenticate
    rw [if_neg hguard]
    simp [noFail, hq]
  · intro hone hexp
    have hmem : (k, r) ∈ uidQuery st uid := by
      rw [hone]
      exact List.mem_singleton_self _
    refine ⟨List.mem_of_mem_filter hmem, ?_⟩
    have hdec : decide (now < r.ttl) = false := by
      simp
      omega
    have hq : runAuthQuery st uid now = [] := by
      rw [runAuthQuery_eq_filter_uidQuery, hone]
      simp [List.filter_cons, hdec]
    unfold authenticate
    rw [if_neg hguard]
    simp [noFail, hq]
  · intro hone httl hcmp
    have hdec : decide (now < r.ttl) = true := by
      simp [httl]
    have hq : runAuthQuery st uid now = [(k, r)] := by
      rw [runAuthQuery_eq_filter_uidQuery, hone]
      simp [List.filter_cons, hdec]
    unfold authenticate
    rw [if_neg hguard]
    simp [noFail, hq, hcmp]

/-- Claim C2 witness: the three cases evaluated on concrete stores. -/
theorem authenticate_uniform_not_found_witness :
    authenticate noFail ⟨[], 0⟩ 50 "tok" "u1" = .ok ⟨none, false, none⟩
    ∧ authenticate noFail ⟨[(4, ⟨"u1", ⟨3, "tok"⟩, 40, none⟩)], 5⟩ 50 "tok" "u1"
        = .ok ⟨none, false, none⟩
    ∧ authenticate noFail ⟨[(4, ⟨"u1", ⟨3, "other"⟩, 60, none⟩)], 5⟩ 50 "tok" "u1"
        = .ok ⟨none, false, none⟩ := by
  refine ⟨?_, ?_, ?_⟩
  · exact (authenticate_uniform_not_found ⟨[], 0⟩ 50 "tok" "u1" 0 ⟨"u1", ⟨3, "tok"⟩, 40, none⟩
      (by decide) (by decide)).1 (by decide)
  · exact ((authenticate_uniform_not_found ⟨[(4, ⟨"u1", ⟨3, "tok"⟩, 40, none⟩)], 5⟩ 50 "tok" "u1"
      4 ⟨"u1", ⟨3, "tok"⟩, 40, none⟩ (by decide) (by decide)).2.1 (by decide) (by decide)).2
  · exact (authenticate_uniform_not_found ⟨[(4, ⟨"u1", ⟨3, "other"⟩, 60, none⟩)], 5⟩ 50 "tok" "u1"
      4 ⟨"u1", ⟨3, "other"⟩, 60, none⟩ (by decide) (by decide)).2.2 (by decide) (by decide)
      (by decide)

/-- Claim C3: after a successful `storeOrUpdate` for uid the uid maps to
exactly one record: if a record already existed (even an expired one) its
identity key is reused and the record is overwritten in place, otherwise the
fresh key `st.nextKey` (not in use by any entry) is allocated; consequently
storing a second token for an already-known uid leaves `length()` unchanged.
Stated for stores satisfying the maintained invariants: unique keys, keys
below the allocation counter, and at most one record per uid. -/
theorem storeOrUpdate_single_record_per_uid
    (st st' : Store) (now : Int) (salt : Nat) (token uid : String) (msToLive : Int)
    (originUrl : Option String)
    (hkeys : (st.entries.map Prod.fst).Nodup)
    (hfresh : ∀ k ∈ st.entries.map Prod.fst, k < st.nextKey)
    (huid : (uidQuery st uid).length ≤ 1)
    (hrun : storeOrUpdate st now salt token uid msToLive originUrl = .ok st') :
    (uidQuery st' uid).length = 1
    ∧ (∀ k r, uidQuery st uid = [(k, r)] →
        uidQuery st' uid = [(k, mkRecord now salt token uid msToLive originUrl)]
        ∧ lengthOp st' = lengthOp st)
    ∧ (uidQuery st uid = [] →
        st'.entries = st.entries ++ [(st.nextKey, mkRecord now salt token uid msToLive originUrl)]
        ∧ st.nextKey ∉ st.entries.map Prod.fst) := by
  unfold storeOrUpdate at hrun
  by_cases hbad : token = "" ∨ uid = "" ∨ msToLive = 0
  · rw [if_pos hbad] at hrun
    exact absurd hrun (by simp)
  rw [if_neg hbad] at hrun
  cases hcase : uidQuery st uid with
  | nil =>
    simp only [hcase] at hrun
    have hst' : st' = ⟨st.entries
        ++ [(st.nextKey, mkRecord now salt token uid msToLive originUrl)], st.nextKey + 1⟩ := by
      cases hrun
      rfl
    subst hst'
    have hleft : st.entries.filter (fun e : Nat × TokenRecord => e.2.uid == uid) = [] := hcase
    have hnew : ((mkRecord now salt token uid msToLive originUrl).uid == uid) = true := by
      simp [mkRecord_uid]
    refine ⟨?_, ?_, ?_⟩
    · unfold uidQuery
      rw [List.filter_append, hleft]
      simp [hnew]
    · intro k r hk
      exact absurd hk (by simp)
    · intro _
      refine ⟨rfl, fun hmem => ?_⟩
      exact absurd (hfresh _ hmem) (by omega)
  | cons hd tl =>
    obtain ⟨k0, r0⟩ := hd
    have htl : tl = [] := by
      rw [hcase] at huid
      simpa using huid
    subst htl
    simp only [hcase] at hrun
    have hst' : st' = ⟨st.entries.map
        (fun e => if e.1 == k0 then (k0, mkRecord now salt token uid msToLive originUrl) else e),
        st.nextKey⟩ := by
      cases hrun
      rfl
    subst hst'
    have hp : ((fun e : Nat × TokenRecord => e.2.uid == uid)
        ((k0, mkRecord now salt token uid msToLive originUrl))) = true := by
      simp [mkRecord_uid]
    have hq : uidQuery ⟨st.entries.map
        (fun e => if e.1 == k0 then (k0, mkRecord now salt token uid msToLive originUrl) else e),
        st.nextKey⟩ uid = [(k0, mkRecord now salt token uid msToLive originUrl)] := by
      show List.filter (fun e => e.2.uid == uid)
          (st.entries.map
            (fun e => if e.1 == k0 then (k0, mkRecord now salt token uid msToLive originUrl) else e))
          = [(k0, mkRecord now salt token uid msToLive originUrl)]
      exact @filter_map_replace (fun e => e.2.uid == uid) st.entries k0 r0
        (mkRecord now salt token uid msToLive originUrl) uid hkeys hcase hp (fun _ h => h)
    refine ⟨by rw [hq]; rfl, ?_, ?_⟩
    · intro k r hk
      have hka : k0 = k := congrArg Prod.fst (List.cons_eq_cons.mp hk).1
      subst hka
      refine ⟨hq, ?_⟩
      unfold lengthOp
      simp
    · intro hk
      exact absurd hk (by simp)

/-- Claim C3 witness: updating the token of a uid that already holds an
expired record reuses key 0 and keeps the length at 1. -/
theorem storeOrUpdate_single_record_per_uid_witness :
    (uidQuery ⟨[(0, mkRecord 100 7 "t2" "u1" 500 none)], 1⟩ "u1").length = 1
    ∧ uidQuery ⟨[(0, mkRecord 100 7 "t2" "u1" 500 none)], 1⟩ "u1"
        = [(0, mkRecord 100 7 "t2" "u1" 500 none)]
    ∧ lengthOp (⟨[(0, mkRecord 100 7 "t2" "u1" 500 none)], 1⟩ : Store)
        = lengthOp (⟨[(0, mkRecord 0 3 "t1" "u1" 50 none)], 1⟩ : Store) := by
  have h := storeOrUpdate_single_record_per_uid ⟨[(0, mkRecord 0 3 "t1" "u1" 50 none)], 1⟩
    ⟨[(0, mkRecord 100 7 "t2" "u1" 500 none)], 1⟩ 100 7 "t2" "u1" 500 none
    (by decide) (by decide) (by decide) (by rfl)
  have h2 := h.2.1 0 (mkRecord 0 3 "t1" "u1" 50 none) (by decide)
  exact ⟨h.1, h2.1, h2.2⟩

/-- Claim C4 counterexample: at the concrete input `msToLive = -5`, which is
not strictly greater than zero, the validation guard passes (JavaScript
`!msToLive` rejects only `0`) and `storeOrUpdate` proceeds to store a record
instead of failing with InvalidArgument. -/
theorem storeOrUpdate_accepts_negative_msToLive :
    ¬ ((-5 : Int) > 0)
    ∧ storeOrUpdate ⟨[], 0⟩ 100 3 "t" "u" (-5) none
      = .ok ⟨[(0, mkRecord 100 3 "t" "u" (-5) none)], 1⟩ :=
  ⟨by decide, by rfl⟩

/-- Claim C4 (amended): `storeOrUpdate` fails with InvalidArgument,
synchronously in the validation guard before bcrypt or any backend call,
exactly when the token is empty, the uid is empty, or `msToLive` equals 0;
every other input — including a negative `msToLive` — passes validation and
is not rejected with InvalidArgument. -/
theorem storeOrUpdate_invalid_args_iff
    (st : Store) (now : Int) (salt : Nat) (token uid : String) (msToLive : Int)
    (originUrl : Option String) :
    storeOrUpdate st now salt token uid msToLive originUrl
      = .error "TokenStore:storeOrUpdate called with invalid parameters"
    ↔ (token = "" ∨ uid = "" ∨ msToLive = 0) := by
  unfold storeOrUpdate
  by_cases hbad : token = "" ∨ uid = "" ∨ msToLive = 0
  · rw [if_pos hbad]
    simp [hbad]
  · rw [if_neg hbad]
    constructor
    · intro h
      exfalso
      cases hcase : uidQuery st uid with
      | nil =>
        simp only [hcase] at h
        exact absurd h (by simp)
      | cons hd tl =>
        obtain ⟨k, r⟩ := hd
        simp only [hcase] at h
        exact absurd h (by simp)
    · intro h
      exact absurd h hbad

/-- Claim C5: the constructor throws when called with zero arguments, but an
omitted kind is stored unchanged as `none`: no code path defaults it to
"passwordless-token", contradicting the constructor's own doc comment
("Defaults to: 'passwordless-token'") and the README. -/
theorem constructor_kind_never_defaulted :
    mkDatastoreStore 0 none none
      = .error "A valid google cloud datastore instance has to be provided"
    ∧ mkDatastoreStore 1 (some 7) none = .ok ⟨some 7, none⟩
    ∧ Config.kind ⟨some 7, none⟩ ≠ some "passwordless-token" :=
  ⟨rfl, rfl, by decide⟩

/-- Claim C6: `length()` returns the raw count of all persisted records — it
splits into the still-valid and the already-expired records, with no ttl
filter applied — and on a store holding expired records the result strictly
exceeds the number of currently valid tokens. -/
theorem length_counts_expired_records :
    (∀ (st : Store) (now : Int), lengthOp st = validCount st now + expiredCount st now)
    ∧ (∃ (st : Store) (now : Int), validCount st now < lengthOp st) := by
  constructor
  · intro st now
    exact length_filter_partition st.entries now
  · exact ⟨⟨[(0, ⟨"u", ⟨0, "t"⟩, 10, none⟩)], 1⟩, 50, by decide⟩

/-- Deleting by key commutes with the uid query. -/
theorem uidQuery_filter_key (st : Store) (uid : String) (k : Nat) :
    uidQuery ⟨st.entries.filter (fun e => e.1 != k), st.nextKey⟩ uid
      = (uidQuery st uid).filter (fun e => e.1 != k) := by
  show List.filter (fun e => e.2.uid == uid) (st.entries.filter (fun e => e.1 != k))
    = List.filter (fun e => e.1 != k) (List.filter (fun e => e.2.uid == uid) st.entries)
  rw [List.filter_filter, List.filter_filter]
  exact List.filter_congr (fun a _ => Bool.and_comm (a.2.uid == uid) (a.1 != k))

/-- Claim C7: for every non-empty uid, `invalidateUser(uid)` deletes the
record for uid when one is present (by deleting the first query result's key)
and succeeds as a no-op when none is present — absence is a successful
outcome, not an error; it fails with InvalidArgument on an empty uid; and a
second call in a row succeeds as well.  Stated for stores holding at most one
record for the uid. -/
theorem invalidateUser_absence_is_success
    (st : Store) (uid : String)
    (huid : (uidQuery st uid).length ≤ 1)
    (hu : uid ≠ "") :
    (∃ st', invalidateUser st uid = .ok st'
      ∧ uidQuery st' uid = []
      ∧ (uidQuery st uid = [] → st' = st)
      ∧ (∀ k r, uidQuery st uid = [(k, r)] →
          st'.entries = st.entries.filter (fun e => e.1 != k))
      ∧ invalidateUser st' uid = .ok st')
    ∧ invalidateUser st ""
      = .error "TokenStore:invalidateUser called with invalid parameters" := by
  constructor
  · cases hcase : uidQuery st uid with
    | nil =>
      have hrun : invalidateUser st uid = .ok st := by
        unfold invalidateUser
        rw [if_neg hu]
        simp [hcase]
      exact ⟨st, hrun, hcase, fun _ => rfl, fun k r hk => absurd hk (by simp), hrun⟩
    | cons hd tl =>
      obtain ⟨k0, r0⟩ := hd
      have htl : tl = [] := by
        rw [hcase] at huid
        simpa using huid
      subst htl
      have hrun : invalidateUser st uid
          = .ok ⟨st.entries.filter (fun e => e.1 != k0), st.nextKey⟩ := by
        unfold invalidateUser
        rw [if_neg hu]
        simp [hcase]
      have hempty : uidQuery ⟨st.entries.filter (fun e => e.1 != k0), st.nextKey⟩ uid = [] := by
        rw [uidQuery_filter_key, hcase]
        simp
      have hrun2 : invalidateUser ⟨st.entries.filter (fun e => e.1 != k0), st.nextKey⟩ uid
          = .ok ⟨st.entries.filter (fun e => e.1 != k0), st.nextKey⟩ := by
        unfold invalidateUser
        rw [if_neg hu]
        simp [hempty]
      refine ⟨⟨st.entries.filter (fun e => e.1 != k0), st.nextKey⟩, hrun, hempty, ?_, ?_, hrun2⟩
      · intro hnil
        exact absurd hnil (by simp)
      · intro k r hk
        have hka : k0 = k := congrArg Prod.fst (List.cons_eq_cons.mp hk).1
        subst hka
        rfl
  · unfold invalidateUser
    rw [if_pos rfl]

/-- Claim C7 witness: the empty-uid rejection at a concrete store, via the
general theorem. -/
theorem invalidateUser_absence_is_success_witness :
    invalidateUser ⟨[(0, ⟨"u1", ⟨1, "t"⟩, 100, none⟩)], 1⟩ ""
      = .error "TokenStore:invalidateUser called with invalid parameters" :=
  (invalidateUser_absence_is_success ⟨[(0, ⟨"u1", ⟨1, "t"⟩, 100, none⟩)], 1⟩ "u1"
    (by decide) (by decide)).2

/-- Claim C8: `clear()` deletes every record in the store regardless of uid or
ttl, so a subsequent `length()` returns zero whatever the prior record count. -/
theorem clear_resets_length_to_zero (st : Store) :
    (clear st).entries = [] ∧ lengthOp (clear st) = 0 := by
  have h : (clear st).entries = [] := by
    unfold clear
    by_cases hlen : 0 < st.entries.length
    · rw [if_pos hlen]
      show st.entries.filter (fun e => !((st.entries.map Prod.fst).contains e.1)) = []
      rw [List.filter_eq_nil_iff]
      intro a ha
      have hmem : a.1 ∈ st.entries.map Prod.fst := List.mem_map_of_mem Prod.fst ha
      have hcont : (st.entries.map Prod.fst).contains a.1 = true :=
        List.elem_eq_true_of_mem hmem
      rw [hcont]
      simp
    · rw [if_neg hlen]
      exact List.eq_nil_of_length_eq_zero (by omega)
  refine ⟨h, ?_⟩
  unfold lengthOp
  rw [h]
  rfl

/-- Claim C9: authenticate fails closed.  A backend query failure surfaces to
the caller as `(err, false, null)`; a failure of the hash comparison
primitive (reached whenever the query returned a record) surfaces as
`(err, false, null)`; and no result with `valid = true` is ever produced
unless both primitives succeeded and the error slot is empty. -/
theorem authenticate_fails_closed
    (w : AuthWorld) (st : Store) (now : Int) (token uid : String)
    (ht : token ≠ "") (hu : uid ≠ "") :
    (∀ e, w.queryErr = some e →
      authenticate w st now token uid = .ok ⟨some e, false, none⟩)
    ∧ (∀ e, w.queryErr = none → w.compareErr = some e → runAuthQuery st uid now ≠ [] →
      authenticate w st now token uid = .ok ⟨some e, false, none⟩)
    ∧ (∀ res, authenticate w st now token uid = .ok res → res.valid = true →
      res.err = none ∧ w.queryErr = none ∧ w.compareErr = none) := by
  have hguard : ¬ (token = "" ∨ uid = "") := by push_neg; exact ⟨ht, hu⟩
  refine ⟨?_, ?_, ?_⟩
  · intro e he
    unfold authenticate
    rw [if_neg hguard, he]
  · intro e hqe hce hne
    unfold authenticate
    rw [if_neg hguard, hqe]
    cases hcase : runAuthQuery st uid now with
    | nil => exact absurd hcase hne
    | cons r rest => simp [hce]
  · intro res hres hvalid
    unfold authenticate at hres
    rw [if_neg hguard] at hres
    cases hqe : w.queryErr with
    | some e =>
      rw [hqe] at hres
      cases hres
      simp at hvalid
    | none =>
      rw [hqe] at hres
      cases hcase : runAuthQuery st uid now with
      | nil =>
        rw [hcase] at hres
        cases hres
        simp at hvalid
      | cons r rest =>
        rw [hcase] at hres
        cases hce : w.compareErr with
        | some e =>
          rw [hce] at hres
          cases hres
          simp at hvalid
        | none =>
          rw [hce] at hres
          have hres' : (if bcryptCompareOk token r.2.hashedToken then
              (.ok ⟨none, true, some (r.2.originUrl.getD "")⟩ : Except String AuthResult)
            else .ok ⟨none, false, none⟩) = .ok res := hres
          by_cases hcmp : bcryptCompareOk token r.2.hashedToken = true
          · rw [if_pos hcmp] at hres'
            cases hres'
            exact ⟨rfl, rfl, rfl⟩
          · rw [if_neg hcmp] at hres'
            cases hres'
            simp at hvalid

/-- Claim C9 witness: a query failure and a compare failure at concrete
inputs, both surfacing with `(false, null)`. -/
theorem authenticate_fails_closed_witness :
    authenticate ⟨some "boom", none⟩ ⟨[], 0⟩ 5 "t" "u" = .ok ⟨some "boom", false, none⟩
    ∧ authenticate ⟨none, some "cmp"⟩ ⟨[(0, ⟨"u", ⟨1, "t"⟩, 9, none⟩)], 1⟩ 5 "t" "u"
        = .ok ⟨some "cmp", false, none⟩ := by
  constructor
  · exact (authenticate_fails_closed ⟨some "boom", none⟩ ⟨[], 0⟩ 5 "t" "u"
      (by decide) (by decide)).1 "boom" rfl
  · exact (authenticate_fails_closed ⟨none, some "cmp"⟩ ⟨[(0, ⟨"u", ⟨1, "t"⟩, 9, none⟩)], 1⟩
      5 "t" "u" (by decide) (by decide)).2.1 "cmp" rfl rfl (by decide)

/-- Claim C10: if the store holds two records for the same uid (a state a
backend race can produce), a single `invalidateUser(uid)` call succeeds yet
deletes only the first record the query returns; the second record stays in
the store and its token still authenticates. -/
theorem invalidateUser_deletes_only_first_duplicate
    (st : Store) (now : Int) (uid : String) (k1 k2 : Nat) (r1 r2 : TokenRecord)
    (hu : uid ≠ "")
    (hfil : uidQuery st uid = [(k1, r1), (k2, r2)])
    (hk : k1 ≠ k2)
    (httl : now < r2.ttl)
    (htok : r2.hashedToken.plain ≠ "") :
    invalidateUser st uid = .ok ⟨st.entries.filter (fun e => e.1 != k1), st.nextKey⟩
    ∧ uidQuery ⟨st.entries.filter (fun e => e.1 != k1), st.nextKey⟩ uid = [(k2, r2)]
    ∧ authenticate noFail ⟨st.entries.filter (fun e => e.1 != k1), st.nextKey⟩ now
        r2.hashedToken.plain uid = .ok ⟨none, true, some (r2.originUrl.getD "")⟩ := by
  have hrun : invalidateUser st uid
      = .ok ⟨st.entries.filter (fun e => e.1 != k1), st.nextKey⟩ := by
    unfold invalidateUser
    rw [if_neg hu]
    simp [hfil]
  have h1 : (k1 != k1) = false := by simp
  have h2 : (k2 != k1) = true := by simpa using Ne.symm hk
  have hq2 : uidQuery ⟨st.entries.filter (fun e => e.1 != k1), st.nextKey⟩ uid = [(k2, r2)] := by
    rw [uidQuery_filter_key, hfil]
    simp [List.filter_cons, h1, h2]
  refine ⟨hrun, hq2, ?_⟩
  have hdec : decide (now < r2.ttl) = true := by simp [httl]
  have hauth : runAuthQuery ⟨st.entries.filter (fun e => e.1 != k1), st.nextKey⟩ uid now
      = [(k2, r2)] := by
    rw [runAuthQuery_eq_filter_uidQuery, hq2]
    simp [List.filter_cons, hdec]
  unfold authenticate
  rw [if_neg (by push_neg; exact ⟨htok, hu⟩)]
  have hcmp : bcryptCompareOk r2.hashedToken.plain r2.hashedToken = true := by
    simp [bcryptCompareOk]
  simp [noFail, hauth, hcmp]

/-- Claim C10 witness: a concrete duplicate state for uid "u"; deleting leaves
the second record, whose token "b" still authenticates with its origin URL. -/
theorem invalidateUser_deletes_only_first_duplicate_witness :
    invalidateUser ⟨[(0, ⟨"u", ⟨1, "a"⟩, 100, none⟩), (1, ⟨"u", ⟨2, "b"⟩, 100, some "/x"⟩)], 2⟩ "u"
      = .ok ⟨[(1, ⟨"u", ⟨2, "b"⟩, 100, some "/x"⟩)], 2⟩
    ∧ authenticate noFail ⟨[(1, ⟨"u", ⟨2, "b"⟩, 100, some "/x"⟩)], 2⟩ 50 "b" "u"
      = .ok ⟨none, true, some "/x"⟩ := by
  have h := invalidateUser_deletes_only_first_duplicate
    ⟨[(0, ⟨"u", ⟨1, "a"⟩, 100, none⟩), (1, ⟨"u", ⟨2, "b"⟩, 100, some "/x"⟩)], 2⟩ 50 "u" 0 1
    ⟨"u", ⟨1, "a"⟩, 100, none⟩ ⟨"u", ⟨2, "b"⟩, 100, some "/x"⟩
    (by decide) (by decide) (by decide) (by decide) (by decide)
  have hfe : (⟨([(0, ⟨"u", ⟨1, "a"⟩, 100, none⟩), (1, ⟨"u", ⟨2, "b"⟩, 100, some "/x"⟩)]
      : List (Nat × TokenRecord)).filter (fun e => e.1 != 0), 2⟩ : Store)
      = ⟨[(1, ⟨"u", ⟨2, "b"⟩, 100, some "/x"⟩)], 2⟩ := by decide
  rw [hfe] at h
  exact ⟨h.1, h.2.2⟩

end PasswordlessDatastore
